import Mathlib

/-!
Verification of the Emo-Bot emotion engine (`src/fsm_engine.py`).

The engine is the class `EmotionFSM`: a 7-state mood machine built on the
`transitions` library, a pure score-to-state selector `update_from_nlp`, and
a graphviz export `get_graphviz_source`.  We embed it shallowly:

* states and labels are `String`s, exactly as in the Python source;
* score weights are `ℚ` (Python floats carrying ordinary numeric values);
* a score distribution (Python `dict`) is an association list
  `List (String × ℚ)` in iteration order;
* every method is a state transformer `FSM → α × FSM` (or `FSM → FSM`),
  translated statement by statement from the source.

Python's `max(d.items(), key=lambda x: x[1])[0]` keeps the FIRST maximal
element (later elements replace the champion only on a strictly greater
key), which `pyArgmax` mirrors with a left fold and a strict comparison.
Python truthiness of an optional string (`if top_emo:`) is `truthyStr`:
false for `None` and for the empty string.
-/

namespace EmoBot

/-- The fixed state set, in source order (`EmotionFSM.states`). -/
def states : List String :=
  ["Neutral", "Happy", "Sad", "Angry", "Surprised", "Fearful", "Curious"]

/-- The machine: `self.state` (managed by the `transitions` `Machine`) plus
the `mood_score` dict initialised in `__init__` and never touched again. -/
structure FSM where
  state : String
  mood_score : List (String × ℚ)
  deriving DecidableEq, Repr

/-- `EmotionFSM.__init__`: initial state `"Neutral"`, zero mood scores. -/
def init : FSM :=
  { state := "Neutral", mood_score := states.map (fun s => (s, 0)) }

/-- Python `dict.get` on a string-keyed dict literal with distinct keys:
first (only) matching key wins. -/
def dictGet (k : String) : List (String × String) → Option String
  | [] => none
  | (a, b) :: rest => if a = k then some b else dictGet k rest

/-- The hardcoded emotion-label-to-state dict inside `update_from_nlp`
(lines 61-70 of `fsm_engine.py`). -/
def mapping : List (String × String) :=
  [("joy", "Happy"), ("happy", "Happy"),
   ("sadness", "Sad"), ("sad", "Sad"),
   ("anger", "Angry"), ("angry", "Angry"),
   ("surprise", "Surprised"), ("surprised", "Surprised"),
   ("fear", "Fearful"), ("fearful", "Fearful"),
   ("neutral", "Neutral"),
   ("disgust", "Angry"), ("trust", "Curious"),
   ("anticipation", "Curious"), ("curious", "Curious")]

/-- Python `str.lower()`, character by character. -/
def pyLower (s : String) : String := ⟨s.data.map Char.toLower⟩

/-- Python `str.upper()`, character by character. -/
def pyUpper (s : String) : String := ⟨s.data.map Char.toUpper⟩

/-- Python `max(d.items(), key=lambda x: x[1])[0] if d else None`
(lines 58-59): the label of the first entry attaining the maximal weight. -/
def pyArgmax (d : List (String × ℚ)) : Option String :=
  match d with
  | [] => none
  | p :: ps => some ((ps.foldl (fun best q => if q.2 > best.2 then q else best) p).1)

/-- Python truthiness of an optional string: `None` and `""` are falsy. -/
def truthyStr : Option String → Bool
  | none => false
  | some s => !(s == "")

/-- Python `a or b` for an optional string `a` and string default `b`. -/
def pyOrStr (o : Option String) (d : String) : String :=
  match o with
  | none => d
  | some s => if s = "" then d else s

/-- The trigger dict of `_apply_transition` (lines 88-96) followed by firing
the trigger: `mapping.get(target_state, self.to_neutral)` picks `to_<x>` for
a known state name and defaults to `to_neutral` otherwise; each trigger has
source `"*"` and unconditionally sets its destination state. -/
def triggerDest (target_state : String) : String :=
  if target_state = "Happy" then "Happy"
  else if target_state = "Sad" then "Sad"
  else if target_state = "Angry" then "Angry"
  else if target_state = "Neutral" then "Neutral"
  else if target_state = "Surprised" then "Surprised"
  else if target_state = "Fearful" then "Fearful"
  else if target_state = "Curious" then "Curious"
  else "Neutral"

/-- `EmotionFSM._apply_transition` (lines 86-98): resolve the trigger for
`target_state` (defaulting to `to_neutral`) and fire it. -/
def apply_transition (target_state : String) (m : FSM) : FSM :=
  { m with state := triggerDest target_state }

/-- `EmotionFSM.update_from_nlp` (lines 56-84), statement by statement;
returns `self.state` together with the updated machine. -/
def update_from_nlp (emotion_scores sentiment_scores : List (String × ℚ))
    (m : FSM) : String × FSM :=
  let top_emo := pyArgmax emotion_scores
  let top_sent := pyArgmax sentiment_scores
  let chosen0 : Option String :=
    if truthyStr top_emo then dictGet (pyLower (top_emo.getD "")) mapping
    else none
  let chosen : Option String :=
    if !(truthyStr chosen0) && truthyStr top_sent then
      (if pyUpper (top_sent.getD "") = "POSITIVE" then some "Happy"
       else if pyUpper (top_sent.getD "") = "NEGATIVE" then some "Sad"
       else some "Neutral")
    else chosen0
  let m1 := apply_transition (pyOrStr chosen "Neutral") m
  (m1.state, m1)

/-- A node of the exported graph: identifier plus whether the source styles
it as the active (filled, lightblue) node. -/
structure Node where
  id : String
  active : Bool
  deriving DecidableEq, Repr

/-- A directed edge of the exported graph. -/
structure Edge where
  src : String
  dst : String
  deriving DecidableEq, Repr

/-- The semantic content of the graphviz source: node list and edge list in
emission order. -/
structure GraphArtifact where
  nodes : List Node
  edges : List Edge
  deriving DecidableEq, Repr

/-- The body of `get_graphviz_source` as a function of `current`
(lines 40-49): one node per state, flagged when it equals `current`; one
edge per ordered pair of distinct states. -/
def build_graph (current : String) : GraphArtifact :=
  { nodes := states.map (fun s => { id := s, active := s = current }),
    edges := (states.map (fun s =>
      (states.filter (fun t => s ≠ t)).map (fun t => ⟨s, t⟩))).flatten }

/-- `EmotionFSM.get_graphviz_source` (lines 33-51): reads
`current = getattr(self, "state", "Neutral")` (the attribute always exists
once the machine is built), emits the graph, assigns nothing. -/
def get_graphviz_source (m : FSM) : GraphArtifact × FSM :=
  (build_graph m.state, m)

/-- Machine states reachable through the public operations, starting from a
freshly constructed `EmotionFSM`. -/
inductive Reachable : FSM → Prop
  | init : Reachable init
  | update (emo sent : List (String × ℚ)) (m : FSM) :
      Reachable m → Reachable (update_from_nlp emo sent m).2
  | apply (t : String) (m : FSM) :
      Reachable m → Reachable (apply_transition t m)
  | graph (m : FSM) :
      Reachable m → Reachable (get_graphviz_source m).2

/-- Formalisation of the spec wording for comparison with the source
(section 4.1/7): `transition_to` must "fail fast with an `InvalidState`
error rather than silently defaulting" on an identifier outside the fixed
state set, and set the state unconditionally on a valid one. -/
def transition_to_specContract (target : String) (m : FSM) :
    Except String FSM :=
  if target ∈ states then Except.ok { m with state := target }
  else Except.error "InvalidState"

/-! ### Helper lemmas -/

/-- The emotion-derived candidate of `update_from_nlp` (`chosen_state` after
line 74). -/
def chosen0Of (emotion_scores : List (String × ℚ)) : Option String :=
  if truthyStr (pyArgmax emotion_scores) then
    dictGet (pyLower ((pyArgmax emotion_scores).getD "")) mapping
  else none

/-- The sentiment branch of `update_from_nlp` (lines 76-81). -/
def sentChoice (sentiment_scores : List (String × ℚ)) : Option String :=
  if pyUpper ((pyArgmax sentiment_scores).getD "") = "POSITIVE" then some "Happy"
  else if pyUpper ((pyArgmax sentiment_scores).getD "") = "NEGATIVE" then some "Sad"
  else some "Neutral"

/-- `chosen_state` after line 81. -/
def chosenOf (emotion_scores sentiment_scores : List (String × ℚ)) :
    Option String :=
  if !(truthyStr (chosen0Of emotion_scores)) &&
      truthyStr (pyArgmax sentiment_scores) then
    sentChoice sentiment_scores
  else chosen0Of emotion_scores

/-- The target state actually passed to `_apply_transition` (line 83). -/
def targetOf (emotion_scores sentiment_scores : List (String × ℚ)) : String :=
  pyOrStr (chosenOf emotion_scores sentiment_scores) "Neutral"

lemma update_from_nlp_eq (emo sent : List (String × ℚ)) (m : FSM) :
    update_from_nlp emo sent m =
      (triggerDest (targetOf emo sent),
       { m with state := triggerDest (targetOf emo sent) }) := rfl

lemma triggerDest_mem {t : String} (h : t ∈ states) : triggerDest t = t := by
  simp only [states, List.mem_cons, List.not_mem_nil, or_false] at h
  rcases h with rfl | rfl | rfl | rfl | rfl | rfl | rfl <;> decide

lemma triggerDest_not_mem {t : String} (h : t ∉ states) :
    triggerDest t = "Neutral" := by
  unfold triggerDest
  repeat' split
  all_goals simp_all [states]

lemma triggerDest_mem_states (t : String) : triggerDest t ∈ states := by
  by_cases h : t ∈ states
  · rw [triggerDest_mem h]; exact h
  · rw [triggerDest_not_mem h]; decide

lemma triggerDest_eq (t : String) :
    triggerDest t = if t ∈ states then t else "Neutral" := by
  by_cases h : t ∈ states
  · rw [triggerDest_mem h, if_pos h]
  · rw [triggerDest_not_mem h, if_neg h]

lemma dictGet_forall {P : String → Prop} :
    ∀ l : List (String × String), (∀ p ∈ l, P p.2) →
      ∀ {k v : String}, dictGet k l = some v → P v := by
  intro l
  induction l with
  | nil => intro _ k v h; cases h
  | cons a rest ih =>
    intro hall k v h
    unfold dictGet at h
    split at h
    · cases h; exact hall a (by simp)
    · exact ih (fun p hp => hall p (by simp [hp])) h

lemma mapping_sound {k v : String} (h : dictGet k mapping = some v) :
    v ∈ states ∧ v ≠ "" :=
  dictGet_forall (P := fun v => v ∈ states ∧ v ≠ "") mapping (by decide) h

lemma dictGet_empty_key : dictGet (pyLower "") mapping = none := by decide

lemma chosen0Of_hit {emo : List (String × ℚ)} {l v : String}
    (htop : pyArgmax emo = some l)
    (hmap : dictGet (pyLower l) mapping = some v) :
    chosen0Of emo = some v := by
  have hl : l ≠ "" := by
    rintro rfl
    rw [dictGet_empty_key] at hmap
    cases hmap
  unfold chosen0Of
  rw [htop]
  simp [truthyStr, hl, hmap]

lemma update_emotion_hit (emo sent : List (String × ℚ)) (m : FSM)
    {l v : String} (htop : pyArgmax emo = some l)
    (hmap : dictGet (pyLower l) mapping = some v) :
    (update_from_nlp emo sent m).1 = v := by
  obtain ⟨hv_mem, hv_ne⟩ := mapping_sound hmap
  have h0 : chosen0Of emo = some v := chosen0Of_hit htop hmap
  rw [update_from_nlp_eq]
  show triggerDest (targetOf emo sent) = v
  unfold targetOf chosenOf
  rw [h0]
  simp [truthyStr, hv_ne, pyOrStr, triggerDest_mem hv_mem]

lemma update_sentiment_eq (emo sent : List (String × ℚ)) (m : FSM)
    (hemo : (pyArgmax emo).bind (fun l => dictGet (pyLower l) mapping) = none) :
    (update_from_nlp emo sent m).1 =
      match pyArgmax sent with
      | none => "Neutral"
      | some ts =>
        if pyUpper ts = "POSITIVE" then "Happy"
        else if pyUpper ts = "NEGATIVE" then "Sad"
        else "Neutral" := by
  have h0 : chosen0Of emo = none := by
    unfold chosen0Of
    cases hargmax : pyArgmax emo with
    | none => simp [truthyStr]
    | some l =>
      rw [hargmax] at hemo
      simp only [Option.some_bind] at hemo
      split <;> simp [hemo]
  rw [update_from_nlp_eq]
  show triggerDest (targetOf emo sent) = _
  unfold targetOf chosenOf sentChoice
  rw [h0]
  cases hs : pyArgmax sent with
  | none => simp [truthyStr, pyOrStr]; decide
  | some ts =>
    by_cases hts : ts = ""
    · subst hts
      simp [truthyStr, pyOrStr]
      decide
    · have hbeq : (ts == "") = false := beq_eq_false_iff_ne.mpr hts
      simp only [truthyStr, hbeq, Option.getD_some, Bool.not_false,
        Bool.true_and, Bool.and_true, if_true]
      by_cases hp : pyUpper ts = "POSITIVE"
      · simp [hp, pyOrStr, triggerDest]
      · by_cases hn : pyUpper ts = "NEGATIVE"
        · simp [hp, hn, pyOrStr, triggerDest]
        · simp [hp, hn, pyOrStr, triggerDest]

/-- Renaming the labels of a distribution while keeping the weights. -/
def relabel (f : String → String) (p : String × ℚ) : String × ℚ :=
  (f p.1, p.2)

lemma foldl_argmax_relabel (f : String → String) :
    ∀ (ps : List (String × ℚ)) (p : String × ℚ),
      (ps.map (relabel f)).foldl
          (fun best q => if q.2 > best.2 then q else best) (relabel f p)
        = relabel f
            (ps.foldl (fun best q => if q.2 > best.2 then q else best) p) := by
  intro ps
  induction ps with
  | nil => intro p; rfl
  | cons q qs ih =>
    intro p
    simp only [List.map_cons, List.foldl_cons]
    rw [show (if (relabel f q).2 > (relabel f p).2 then relabel f q
          else relabel f p) = relabel f (if q.2 > p.2 then q else p) by
        by_cases h : q.2 > p.2 <;> simp [relabel, h]]
    exact ih _

lemma pyArgmax_relabel (f : String → String) (d : List (String × ℚ)) :
    pyArgmax (d.map (relabel f)) = (pyArgmax d).map f := by
  cases d with
  | nil => rfl
  | cons p ps =>
    simp only [List.map_cons, pyArgmax]
    rw [foldl_argmax_relabel]
    rfl

lemma foldl_argmax_mem :
    ∀ (ps : List (String × ℚ)) (p : String × ℚ),
      ps.foldl (fun best q => if q.2 > best.2 then q else best) p ∈ p :: ps := by
  intro ps
  induction ps with
  | nil => intro p; simp
  | cons q qs ih =>
    intro p
    simp only [List.foldl_cons]
    rcases List.mem_cons.mp (ih (if q.2 > p.2 then q else p)) with h1 | h1
    · rw [h1]
      by_cases hq : q.2 > p.2 <;> simp [hq]
    · exact List.mem_cons_of_mem _ (List.mem_cons_of_mem _ h1)

lemma pyArgmax_mem {d : List (String × ℚ)} {l : String}
    (h : pyArgmax d = some l) : ∃ w, (l, w) ∈ d := by
  cases d with
  | nil => cases h
  | cons p ps =>
    simp only [pyArgmax, Option.some.injEq] at h
    refine ⟨(ps.foldl (fun best q => if q.2 > best.2 then q else best) p).2, ?_⟩
    rw [← h]
    simpa using foldl_argmax_mem ps p

lemma pyLower_nil_iff {a b : String} (h : pyLower a = pyLower b) :
    a = "" ↔ b = "" := by
  have hd : a.data.map Char.toLower = b.data.map Char.toLower :=
    congrArg String.data h
  have hlen : a.data.length = b.data.length := by
    have h2 := congrArg List.length hd
    simpa using h2
  have ha : a = "" ↔ a.data = [] := by
    cases a; simp [String.ext_iff]
  have hb : b = "" ↔ b.data = [] := by
    cases b; simp [String.ext_iff]
  rw [ha, hb, ← List.length_eq_zero, ← List.length_eq_zero, hlen]

lemma foldl_argmax_first_max :
    ∀ (ps : List (String × ℚ)) (p : String × ℚ),
      ∃ i : Nat, ∃ hi : i < (p :: ps).length,
        ps.foldl (fun best q => if q.2 > best.2 then q else best) p
          = (p :: ps).get ⟨i, hi⟩ ∧
        (∀ (j : Nat) (hj : j < (p :: ps).length),
          ((p :: ps).get ⟨j, hj⟩).2 ≤ ((p :: ps).get ⟨i, hi⟩).2) ∧
        (∀ (j : Nat) (hj : j < (p :: ps).length), j < i →
          ((p :: ps).get ⟨j, hj⟩).2 < ((p :: ps).get ⟨i, hi⟩).2) := by
  intro ps
  induction ps with
  | nil =>
    intro p
    refine ⟨0, by simp, by simp, ?_, ?_⟩
    · intro j hj
      simp only [List.length_cons, List.length_nil] at hj
      have hj0 : j = 0 := by omega
      subst hj0
      exact le_refl _
    · intro j hj hji
      omega
  | cons q qs ih =>
    intro p
    simp only [List.foldl_cons]
    by_cases hq : q.2 > p.2
    · rw [if_pos hq]
      obtain ⟨i, hi, h1, h2, h3⟩ := ih q
      have hi2 : i + 1 < (p :: q :: qs).length := by
        simp only [List.length_cons] at hi ⊢
        omega
      refine ⟨i + 1, hi2, ?_, ?_, ?_⟩
      · rw [h1, List.get_cons_succ]
      · intro j hj
        cases j with
        | zero =>
          simp only [List.get_cons_zero, List.get_cons_succ]
          exact le_trans (le_of_lt hq)
            (by simpa using h2 0 (by simp))
        | succ jj =>
          simp only [List.get_cons_succ]
          exact h2 jj (by simpa using Nat.lt_of_succ_lt_succ hj)
      · intro j hj hji
        cases j with
        | zero =>
          simp only [List.get_cons_zero, List.get_cons_succ]
          exact lt_of_lt_of_le hq (by simpa using h2 0 (by simp))
        | succ jj =>
          simp only [List.get_cons_succ]
          exact h3 jj (by simpa using Nat.lt_of_succ_lt_succ hj)
            (Nat.lt_of_succ_lt_succ hji)
    · rw [if_neg hq]
      obtain ⟨i, hi, h1, h2, h3⟩ := ih p
      have hqp : q.2 ≤ p.2 := le_of_not_lt hq
      cases i with
      | zero =>
        have hr : qs.foldl (fun best q => if q.2 > best.2 then q else best) p
            = p := by rw [h1]; simp
        have hp2 : ∀ (j : Nat) (hj : j < (p :: qs).length),
            ((p :: qs).get ⟨j, hj⟩).2 ≤ p.2 := by
          intro j hj
          simpa using h2 j hj
        refine ⟨0, by simp, by rw [hr]; simp, ?_, ?_⟩
        · intro j hj
          cases j with
          | zero => simp
          | succ jj =>
            simp only [List.get_cons_zero, List.get_cons_succ]
            cases jj with
            | zero => simpa using hqp
            | succ k =>
              have hk : k + 1 < (p :: qs).length := by
                simp only [List.length_cons] at hj ⊢
                omega
              have := hp2 (k + 1) hk
              simpa using this
        · intro j hj hji
          omega
      | succ k =>
        have hk2 : k + 2 < (p :: q :: qs).length := by
          simp only [List.length_cons] at hi ⊢
          omega
        have hget : (p :: q :: qs).get ⟨k + 2, hk2⟩
            = (p :: qs).get ⟨k + 1, hi⟩ := by
          simp only [List.get_cons_succ]
        refine ⟨k + 2, hk2, ?_, ?_, ?_⟩
        · rw [h1, hget]
        · intro j hj
          rw [hget]
          cases j with
          | zero =>
            simpa using h2 0 (by simp)
          | succ jj =>
            cases jj with
            | zero =>
              simp only [List.get_cons_zero, List.get_cons_succ]
              exact le_trans hqp (by simpa using h2 0 (by simp))
            | succ n =>
              have hn : n + 1 < (p :: qs).length := by
                simp only [List.length_cons] at hj ⊢
                omega
              have := h2 (n + 1) hn
              simp only [List.get_cons_succ]
              simpa using this
        · intro j hj hji
          rw [hget]
          cases j with
          | zero =>
            simpa using h3 0 (by simp) (by omega)
          | succ jj =>
            cases jj with
            | zero =>
              simp only [List.get_cons_zero, List.get_cons_succ]
              exact lt_of_le_of_lt hqp
                (by simpa using h3 0 (by simp) (by omega))
            | succ n =>
              have hn : n + 1 < (p :: qs).length := by
                simp only [List.length_cons] at hj ⊢
                omega
              have := h3 (n + 1) hn (by omega)
              simp only [List.get_cons_succ]
              simpa using this

lemma reachable_state_mem {m : FSM} (h : Reachable m) : m.state ∈ states := by
  induction h with
  | init => decide
  | update emo sent m _ _ => exact triggerDest_mem_states _
  | apply t m _ _ => exact triggerDest_mem_states _
  | graph m _ ih => exact ih

lemma build_graph_invariant {c : String} (hc : c ∈ states) :
    (build_graph c).nodes.length = 7 ∧
    (build_graph c).edges.length = 42 ∧
    ((build_graph c).nodes.filter (fun n => n.active)).length = 1 ∧
    ∀ n ∈ (build_graph c).nodes, n.active → n.id = c := by
  simp only [states, List.mem_cons, List.not_mem_nil, or_false] at hc
  rcases hc with rfl | rfl | rfl | rfl | rfl | rfl | rfl <;> decide

/-! ### Claims -/

/-- C1, counterexample.  The claim says an invalid state identifier makes
the transition operation "fail fast with an InvalidState error rather than
silently defaulting".  On the source, `_apply_transition("Bogus")` resolves
its trigger with `mapping.get(target_state, self.to_neutral)` and silently
fires `to_neutral`: the machine ends in `"Neutral"` and no error is raised,
whereas the spec's own contract (`transition_to_specContract`) demands an
`InvalidState` error there. -/
theorem C1_counterexample :
    "Bogus" ∉ states ∧
    (apply_transition "Bogus" { state := "Happy", mood_score := [] }).state
      = "Neutral" ∧
    transition_to_specContract "Bogus"
        { state := "Happy", mood_score := [] }
      = Except.error "InvalidState" :=
  ⟨by decide, by decide, rfl⟩

/-- C1, amended.  `_apply_transition` is total: a target inside the fixed
7-member set is honoured exactly, and a target outside it silently defaults
to `"Neutral"` (the `to_neutral` trigger) — no error is ever raised. -/
theorem C1_amended (target : String) (m : FSM) :
    (apply_transition target m).state =
      if target ∈ states then target else "Neutral" :=
  triggerDest_eq target

/-- C2: for every pair of finite score distributions (both empty included),
`update_from_nlp` returns a member of the 7-member state set; the embedded
operation is a total function, so no error is possible. -/
theorem C2_select_total (emo sent : List (String × ℚ)) (m : FSM) :
    (update_from_nlp emo sent m).1 ∈ states := by
  rw [update_from_nlp_eq]
  exact triggerDest_mem_states _

/-- C3: whenever the emotion distribution is non-empty and its
highest-weight label, lower-cased, is a key of the label-to-state map, the
selected state is that key's value, whatever the sentiment distribution
holds; in particular emotion `{"joy": 0.9, "anger": 0.1}` with sentiment
`{"NEGATIVE": 0.99}` yields `"Happy"`. -/
theorem C3_emotion_precedence :
    (∀ (emo sent : List (String × ℚ)) (m : FSM) (l v : String),
      pyArgmax emo = some l → dictGet (pyLower l) mapping = some v →
      (update_from_nlp emo sent m).1 = v) ∧
    ∀ m : FSM,
      (update_from_nlp [("joy", (9 : ℚ)/10), ("anger", 1/10)]
        [("NEGATIVE", 99/100)] m).1 = "Happy" := by
  constructor
  · intro emo sent m l v htop hmap
    exact update_emotion_hit emo sent m htop hmap
  · intro m
    refine update_emotion_hit _ _ m (l := "joy") (v := "Happy") ?_ (by decide)
    simp only [pyArgmax, List.foldl]
    rw [if_neg (by norm_num)]

/-- C3, witness at a concrete input. -/
theorem C3_witness :
    (update_from_nlp [("joy", (9 : ℚ)), ("anger", 1)] [("NEGATIVE", 99)]
      init).1 = "Happy" :=
  C3_emotion_precedence.1 _ _ init "joy" "Happy" (by decide) (by decide)

/-- C4: when the emotion distribution yields no usable label (it is empty,
or its top label lower-cased is not a key of the map), selection falls back
to the sentiment distribution: its top label upper-cased maps `POSITIVE` to
`"Happy"`, `NEGATIVE` to `"Sad"`, anything else to `"Neutral"`; and with
both distributions empty or unusable the result is `"Neutral"`. -/
theorem C4_sentiment_fallback (emo sent : List (String × ℚ)) (m : FSM)
    (hemo : (pyArgmax emo).bind (fun l => dictGet (pyLower l) mapping)
      = none) :
    (update_from_nlp emo sent m).1 =
      match pyArgmax sent with
      | none => "Neutral"
      | some ts =>
        if pyUpper ts = "POSITIVE" then "Happy"
        else if pyUpper ts = "NEGATIVE" then "Sad"
        else "Neutral" :=
  update_sentiment_eq emo sent m hemo

/-- C4, witness: the spec's own sentiment-fallback test vector. -/
theorem C4_witness :
    (update_from_nlp [("unknown_label", (1 : ℚ))]
      [("POSITIVE", (7 : ℚ)), ("NEGATIVE", 3)] init).1 = "Happy" :=
  (C4_sentiment_fallback _ _ init (by decide)).trans (by decide)

/-- C5: for every ordered pair `(A, B)` of the 7 states, `A = B` included,
firing the transition towards `B` from state `A` succeeds, sets the current
state to `B` (leaving every other field untouched), so the operation's
observable result — the machine's current state — is `B`. -/
theorem C5_machine_complete (A B : String) (ms : List (String × ℚ))
    (_hA : A ∈ states) (hB : B ∈ states) :
    apply_transition B { state := A, mood_score := ms } =
      { state := B, mood_score := ms } := by
  unfold apply_transition
  rw [triggerDest_mem hB]

/-- C5, witness at a concrete pair of states. -/
theorem C5_witness :
    apply_transition "Sad" { state := "Happy", mood_score := [] } =
      { state := "Sad", mood_score := [] } :=
  C5_machine_complete "Happy" "Sad" [] (by decide) (by decide)

/-- C6: in every reachable machine state, the exported graph has exactly 7
nodes and exactly 42 directed edges, exactly one node is flagged active,
and every active node carries the current state's identifier. -/
theorem C6_graph_invariant (m : FSM) (h : Reachable m) :
    (get_graphviz_source m).1.nodes.length = 7 ∧
    (get_graphviz_source m).1.edges.length = 42 ∧
    ((get_graphviz_source m).1.nodes.filter (fun n => n.active)).length = 1 ∧
    ∀ n ∈ (get_graphviz_source m).1.nodes, n.active → n.id = m.state :=
  build_graph_invariant (reachable_state_mem h)

/-- C6, witness on the freshly initialised machine. -/
theorem C6_witness :
    (get_graphviz_source init).1.nodes.length = 7 ∧
    (get_graphviz_source init).1.edges.length = 42 ∧
    ((get_graphviz_source init).1.nodes.filter (fun n => n.active)).length
      = 1 ∧
    ∀ n ∈ (get_graphviz_source init).1.nodes, n.active → n.id = init.state :=
  C6_graph_invariant init Reachable.init

/-- C9: the graph export is a pure query — it returns the machine
unchanged, and two consecutive calls with no transition in between produce
identical artifacts. -/
theorem C9_graph_pure (m : FSM) :
    (get_graphviz_source m).2 = m ∧
    (get_graphviz_source ((get_graphviz_source m).2)).1 =
      (get_graphviz_source m).1 :=
  ⟨rfl, rfl⟩

/-- C10: the state after `update_from_nlp`, and the value it returns,
depend only on the two input distributions, never on the machine's prior
state. -/
theorem C10_state_independent (emo sent : List (String × ℚ)) (a b : FSM) :
    (update_from_nlp emo sent a).2.state =
      (update_from_nlp emo sent b).2.state ∧
    (update_from_nlp emo sent a).1 = (update_from_nlp emo sent b).1 :=
  ⟨rfl, rfl⟩

/-- C7: the selection is case-insensitive in emotion labels.  For every
weight `w`, `{"JOY": w}` selects the same state as `{"joy": w}`, namely
`"Happy"`; and in general, renaming every emotion label by any function
that is invisible to lower-casing (upper-casing and lower-casing both are)
leaves the selected state unchanged. -/
theorem C7_case_insensitive :
    (∀ (w : ℚ) (sent : List (String × ℚ)) (m : FSM),
      (update_from_nlp [("JOY", w)] sent m).1 =
        (update_from_nlp [("joy", w)] sent m).1 ∧
      (update_from_nlp [("JOY", w)] sent m).1 = "Happy") ∧
    ∀ (emo sent : List (String × ℚ)) (m : FSM) (f : String → String),
      (∀ p ∈ emo, pyLower (f p.1) = pyLower p.1) →
      (update_from_nlp (emo.map (relabel f)) sent m).1 =
        (update_from_nlp emo sent m).1 := by
  constructor
  · intro w sent m
    have h1 : (update_from_nlp [("JOY", w)] sent m).1 = "Happy" :=
      update_emotion_hit _ _ m (l := "JOY") rfl (by decide)
    have h2 : (update_from_nlp [("joy", w)] sent m).1 = "Happy" :=
      update_emotion_hit _ _ m (l := "joy") rfl (by decide)
    exact ⟨h1.trans h2.symm, h1⟩
  · intro emo sent m f hf
    rw [update_from_nlp_eq, update_from_nlp_eq]
    show triggerDest (targetOf (emo.map (relabel f)) sent)
      = triggerDest (targetOf emo sent)
    have hchosen : chosen0Of (emo.map (relabel f)) = chosen0Of emo := by
      unfold chosen0Of
      rw [pyArgmax_relabel]
      cases hargmax : pyArgmax emo with
      | none => rfl
      | some l =>
        obtain ⟨w, hmem⟩ := pyArgmax_mem hargmax
        have hfl : pyLower (f l) = pyLower l := hf (l, w) hmem
        have hiff : f l = "" ↔ l = "" := pyLower_nil_iff hfl
        by_cases hl : l = ""
        · subst hl
          have hfl0 : f "" = "" := hiff.mpr rfl
          simp [truthyStr, hfl0]
        · have h1 : (f l == "") = false :=
            beq_eq_false_iff_ne.mpr (fun hx => hl (hiff.mp hx))
          have h2 : (l == "") = false := beq_eq_false_iff_ne.mpr hl
          simp [truthyStr, h1, h2, hfl]
    unfold targetOf chosenOf
    rw [hchosen]

/-- C7, witness: upper-cased and lower-cased singleton distributions at a
concrete weight. -/
theorem C7_witness :
    ((update_from_nlp [("JOY", (1 : ℚ))] [] init).1 =
        (update_from_nlp [("joy", (1 : ℚ))] [] init).1 ∧
      (update_from_nlp [("JOY", (1 : ℚ))] [] init).1 = "Happy") ∧
    (update_from_nlp ([("JOY", (1 : ℚ))].map (relabel pyLower)) [] init).1 =
      (update_from_nlp [("JOY", (1 : ℚ))] [] init).1 :=
  ⟨C7_case_insensitive.1 1 [] init,
   C7_case_insensitive.2 _ [] init pyLower (by decide)⟩

/-- C8: on a non-empty distribution, the top-label selector used for both
the emotion and the sentiment distribution (`pyArgmax`, embedding
`max(d.items(), key=lambda x: x[1])[0]` from lines 58-59) returns the
label of an entry of maximal weight such that every strictly earlier entry
has strictly smaller weight — i.e. the first-encountered label among those
tied for the greatest weight; through the whole selection, a leading tie
in the emotion list and in the sentiment list both resolve to the first
entry. -/
theorem C8_first_of_ties :
    (∀ d : List (String × ℚ), d ≠ [] →
      ∃ i : Nat, ∃ hi : i < d.length,
        pyArgmax d = some ((d.get ⟨i, hi⟩).1) ∧
        (∀ (j : Nat) (hj : j < d.length),
          (d.get ⟨j, hj⟩).2 ≤ (d.get ⟨i, hi⟩).2) ∧
        (∀ (j : Nat) (hj : j < d.length), j < i →
          (d.get ⟨j, hj⟩).2 < (d.get ⟨i, hi⟩).2)) ∧
    (∀ m : FSM,
      (update_from_nlp [("sadness", (1 : ℚ)), ("joy", 1)] [] m).1 = "Sad") ∧
    (∀ m : FSM,
      (update_from_nlp [] [("NEGATIVE", (1 : ℚ)), ("POSITIVE", 1)] m).1
        = "Sad") := by
  refine ⟨?_, ?_, ?_⟩
  · intro d hd
    cases d with
    | nil => cases hd rfl
    | cons p ps =>
      obtain ⟨i, hi, h1, h2, h3⟩ := foldl_argmax_first_max ps p
      refine ⟨i, hi, ?_, h2, h3⟩
      simp only [pyArgmax]
      rw [h1]
  · intro m
    show triggerDest (targetOf [("sadness", (1 : ℚ)), ("joy", 1)] []) = "Sad"
    decide
  · intro m
    show triggerDest (targetOf [] [("NEGATIVE", (1 : ℚ)), ("POSITIVE", 1)])
      = "Sad"
    decide

/-- C8, witness: a two-entry tie resolves to the first entry. -/
theorem C8_witness :
    ∃ i : Nat,
      ∃ hi : i < ([("a", (1 : ℚ)), ("b", 1)] : List (String × ℚ)).length,
        pyArgmax [("a", (1 : ℚ)), ("b", 1)]
          = some ((([("a", (1 : ℚ)), ("b", 1)] :
              List (String × ℚ)).get ⟨i, hi⟩).1) ∧
        (∀ (j : Nat)
          (hj : j < ([("a", (1 : ℚ)), ("b", 1)] : List (String × ℚ)).length),
          (([("a", (1 : ℚ)), ("b", 1)] : List (String × ℚ)).get ⟨j, hj⟩).2 ≤
            (([("a", (1 : ℚ)), ("b", 1)] : List (String × ℚ)).get ⟨i, hi⟩).2) ∧
        (∀ (j : Nat)
          (hj : j < ([("a", (1 : ℚ)), ("b", 1)] : List (String × ℚ)).length),
          j < i →
          (([("a", (1 : ℚ)), ("b", 1)] : List (String × ℚ)).get ⟨j, hj⟩).2 <
            (([("a", (1 : ℚ)), ("b", 1)] : List (String × ℚ)).get ⟨i, hi⟩).2) :=
  C8_first_of_ties.1 [("a", (1 : ℚ)), ("b", 1)] (by decide)

end EmoBot
